import Mathlib

/-!
Verification of the credential-resolution subsystem of an SSH MCP server.

The definitions below are a shallow embedding of
`src/ssh_mcp_server/credentials.py` (providers and `CredentialManager`) and of
the credential-availability guard of `src/ssh_mcp_server/server.py`.
External effects (subprocess calls to the macOS `security` tool, terminal
prompts) are modelled by explicit environment parameters; Python exceptions
are modelled with `Except`/outcome constructors at every point where the
source can raise or catch one.
-/

set_option autoImplicit false

namespace SshMcp

/-- A username/password pair, the payload of every provider. -/
structure Cred where
  username : String
  password : String
deriving DecidableEq, Repr

/-! ## Domain resolver

`CredentialManager.get_domain_from_hostname` splits the hostname on `'.'`
and keeps the last two labels.  Python string splitting is modelled on
`List Char` so that the split/join algebra can be reasoned about directly;
`'.'` is a literal in the source. -/

/-- Python `s.split('.')`: cuts at every dot, keeping empty segments, and
yields `[[]]` on the empty string, exactly as `str.split` with an explicit
separator does. -/
def splitOnDot : List Char → List (List Char)
  | [] => [[]]
  | c :: rest =>
    let r := splitOnDot rest
    if c = '.' then [] :: r
    else
      match r with
      | [] => [[c]]
      | h :: t => (c :: h) :: t

/-- Python `'.'.join(parts)`. -/
def joinDot : List (List Char) → List Char
  | [] => []
  | [p] => p
  | p :: rest => p ++ '.' :: joinDot rest

/-- `CredentialManager.get_domain_from_hostname` on the character list:
if `'.' in hostname`, split on `'.'` and, when at least two labels result,
join the last two with `'.'`; otherwise return the hostname unchanged. -/
def domainFromHostnameChars (hostname : List Char) : List Char :=
  if '.' ∈ hostname then
    let parts := splitOnDot hostname
    if 2 ≤ parts.length then joinDot (parts.drop (parts.length - 2))
    else hostname
  else hostname

/-- `CredentialManager.get_domain_from_hostname` on `String`. -/
def get_domain_from_hostname (hostname : String) : String :=
  String.mk (domainFromHostnameChars hostname.toList)

/-- The resolver exactly as the spec words it: split on `'.'`; if the split
yields at least two labels, join the last two with `'.'`; otherwise return
the hostname unchanged (no reference to the source's redundant
`'.' in hostname` guard). -/
def domainFromHostnameSpec (hostname : List Char) : List Char :=
  let parts := splitOnDot hostname
  if 2 ≤ parts.length then joinDot (parts.drop (parts.length - 2))
  else hostname

/-- Python `s.strip()`: drop whitespace from both ends. -/
def pyStrip (s : String) : String :=
  String.mk (((s.toList.dropWhile Char.isWhitespace).reverse.dropWhile
    Char.isWhitespace).reverse)

/-! ## Subprocess model (macOS `security` tool)

`subprocess.run` either raises (timeout, missing binary, …) or returns a
completed process with a return code and captured stdout.  A `World`
answers every invocation by its argument vector. -/

/-- Result of a completed `subprocess.run`. -/
structure SubprocResult where
  returncode : Int
  stdout : String
deriving DecidableEq, Repr

/-- Outcome of one `subprocess.run`: a completed process, or a raised
exception (`TimeoutExpired`, `FileNotFoundError`, …). -/
inductive SubprocOutcome where
  | ok : SubprocResult → SubprocOutcome
  | raised : SubprocOutcome
deriving DecidableEq, Repr

/-- One recorded subprocess invocation: the argument vector and the
`timeout=` keyword passed to `subprocess.run` (`none` when the source
passes no timeout). -/
structure SubprocCall where
  argv : List String
  timeout : Option Nat
deriving DecidableEq, Repr

/-- The outside world of subprocess invocations, keyed by argument vector. -/
abbrev World : Type := List String → SubprocOutcome

/-! ## MacOSKeychainProvider -/

/-- Argv of the first keychain lookup (`find-generic-password -s service -w`). -/
def keychainReadCmd1 (domain : String) : List String :=
  ["security", "find-generic-password", "-s", "ssh-mcp-" ++ domain, "-w"]

/-- Argv of the second keychain lookup, scoped by the account name. -/
def keychainReadCmd2 (domain username : String) : List String :=
  ["security", "find-generic-password", "-s", "ssh-mcp-" ++ domain,
   "-a", username, "-w"]

/-- `MacOSKeychainProvider.get_credentials`: two `subprocess.run` calls with
`timeout=30`; a non-zero return code or any exception yields `none`
(the method body is wrapped in `except Exception: return None`).
Returns the resolved credential together with the trace of subprocess
invocations made. -/
def keychainGet (w : World) (domain : String) :
    Option Cred × List SubprocCall :=
  let cmd1 := keychainReadCmd1 domain
  let c1 : SubprocCall := ⟨cmd1, some 30⟩
  match w cmd1 with
  | .raised => (none, [c1])
  | .ok r1 =>
    if r1.returncode ≠ 0 then (none, [c1])
    else
      let username := pyStrip r1.stdout
      let cmd2 := keychainReadCmd2 domain username
      let c2 : SubprocCall := ⟨cmd2, some 30⟩
      match w cmd2 with
      | .raised => (none, [c1, c2])
      | .ok r2 =>
        if r2.returncode ≠ 0 then (none, [c1, c2])
        else (some ⟨username, pyStrip r2.stdout⟩, [c1, c2])

/-- Argv of the keychain delete step of the store path. -/
def keychainDeleteCmd (domain : String) : List String :=
  ["security", "delete-generic-password", "-s", "ssh-mcp-" ++ domain]

/-- Argv of the keychain add step of the store path. -/
def keychainAddCmd (domain username password : String) : List String :=
  ["security", "add-generic-password", "-s", "ssh-mcp-" ++ domain,
   "-a", username, "-w", password, "-T", "", "-U"]

/-- `MacOSKeychainProvider.store_credentials`: delete any existing entry,
then add the new one; neither `subprocess.run` call passes a timeout.
Success iff the add step completes with return code 0; any exception yields
`false`. -/
def keychainStore (w : World) (domain username password : String) :
    Bool × List SubprocCall :=
  let delCmd := keychainDeleteCmd domain
  let cDel : SubprocCall := ⟨delCmd, none⟩
  match w delCmd with
  | .raised => (false, [cDel])
  | .ok _ =>
    let addCmd := keychainAddCmd domain username password
    let cAdd : SubprocCall := ⟨addCmd, none⟩
    match w addCmd with
    | .raised => (false, [cDel, cAdd])
    | .ok r => (r.returncode == 0, [cDel, cAdd])

/-- `MacOSKeychainProvider.test_credentials_available`: resolves and tests
the result against `None`. -/
def keychainTest (w : World) (domain : String) : Bool :=
  (keychainGet w domain).1.isSome

/-! ## MemoryProvider (the SessionCache)

`self._credentials` is a Python dict from domain to pair; modelled as an
association list with dict get / set / membership semantics. -/

/-- The session cache's backing dict. -/
abbrev MemState : Type := List (String × Cred)

/-- `MemoryProvider.get_credentials`: `self._credentials.get(domain)`. -/
def memGet (m : MemState) (domain : String) : Option Cred :=
  (List.find? (fun kv => kv.1 == domain) m).map Prod.snd

/-- `MemoryProvider.store_credentials`: `self._credentials[domain] = (u, p)`
(insert or overwrite); the method then returns `True`. -/
def memStore (m : MemState) (domain : String) (c : Cred) : MemState :=
  (domain, c) :: List.filter (fun kv => kv.1 != domain) m

/-- `MemoryProvider.test_credentials_available`: `domain in self._credentials`. -/
def memTest (m : MemState) (domain : String) : Bool :=
  List.any m (fun kv => kv.1 == domain)

/-! ## InteractiveProvider

Terminal reads either deliver a line, are cancelled by the operator
(`KeyboardInterrupt` / `EOFError`, which the provider catches), or fail
with some other exception (e.g. an `OSError` from a closed stream), which
the provider does NOT catch and which therefore escapes to the caller. -/

/-- Outcome of one terminal read (`input()` or `getpass.getpass()`). -/
inductive PromptResult where
  | line : String → PromptResult
  | cancel : PromptResult
  | oserror : PromptResult
deriving DecidableEq, Repr

/-- The operator's answers to the username and password prompts of one
`InteractiveProvider.get_credentials` call. -/
structure PromptEnv where
  usernameInput : PromptResult
  passwordInput : PromptResult
deriving DecidableEq, Repr

/-- Result of `InteractiveProvider.get_credentials`: the returned value (or a
propagated exception) plus whether the masked password prompt was reached. -/
structure InteractiveResult where
  result : Except Unit (Option Cred)
  passwordPrompted : Bool
deriving Repr

/-- `InteractiveProvider.get_credentials`: read a username, strip it, reject
empty; then read a password (NOT stripped), reject empty; cancellation
(`KeyboardInterrupt`/`EOFError`) at either prompt is caught and yields
`None`; any other prompt exception propagates. -/
def interactiveGet (pe : PromptEnv) : InteractiveResult :=
  match pe.usernameInput with
  | .cancel => ⟨.ok none, false⟩
  | .oserror => ⟨.error (), false⟩
  | .line s =>
    let username := pyStrip s
    if username = "" then ⟨.ok none, false⟩
    else
      match pe.passwordInput with
      | .cancel => ⟨.ok none, true⟩
      | .oserror => ⟨.error (), true⟩
      | .line p =>
        if p = "" then ⟨.ok none, true⟩
        else ⟨.ok (some ⟨username, p⟩), true⟩

/-- `InteractiveProvider.store_credentials`: always `False`, no side effect. -/
def interactiveStore : Bool := false

/-- `InteractiveProvider.test_credentials_available`: always `True`. -/
def interactiveTest : Bool := true

/-! ## CredentialManager -/

/-- The provider kinds the manager can hold.  The source constructs only the
first three; `environment` names the EnvironmentLookup variant the spec
describes, so that its (non-)membership in the chain can be stated. -/
inductive Provider where
  | keychain
  | memory
  | interactive
  | environment
deriving DecidableEq, Repr

/-- `CredentialManager.__init__`: the keychain provider when the platform is
Darwin, then the memory provider (session cache), then the interactive
provider as last resort. -/
def managerProviders (darwin : Bool) : List Provider :=
  (if darwin then [Provider.keychain] else []) ++
    [Provider.memory, Provider.interactive]

/-- `self.providers[:-2]` — the slice `store_credentials` iterates, meant to
exclude the memory and interactive providers. -/
def durableProviders (darwin : Bool) : List Provider :=
  (managerProviders darwin).take ((managerProviders darwin).length - 2)

/-- One provider's `get_credentials(domain)` as invoked by the manager's
loop body: the keychain resolves through the subprocess world, the cache
through the current memory state, the interactive provider through the
prompt environment (and only it can raise).  The source never constructs an
environment provider; were one present, the manager would observe it as a
provider whose resolution raises `NameError`-like failure — modelled as an
error so the chain semantics stay total. -/
def resolveProvider (w : World) (pe : PromptEnv) (m : MemState)
    (domain : String) : Provider → Except Unit (Option Cred)
  | .keychain => .ok (keychainGet w domain).1
  | .memory => .ok (memGet m domain)
  | .interactive => (interactiveGet pe).result
  | .environment => .error ()

/-- Result of `CredentialManager.get_credentials`: the returned value, the
session cache afterwards, and how many times the keychain provider and the
interactive provider were invoked. -/
structure GetResult where
  result : Option Cred
  mem : MemState
  keychainCalls : Nat
  interactiveCalls : Nat
deriving Repr

/-- The `for provider in self.providers` loop of
`CredentialManager.get_credentials`: resolve each provider in order inside
`try`; a raised exception means `continue`; a falsy result means continue;
on the first truthy result, write it back into the memory provider unless it
came from the memory provider itself, and return it. -/
def managerGetGo (w : World) (pe : PromptEnv) (domain : String) :
    List Provider → MemState → Nat → Nat → GetResult
  | [], m, kc, ic => ⟨none, m, kc, ic⟩
  | p :: rest, m, kc, ic =>
    let kc1 := if p = .keychain then kc + 1 else kc
    let ic1 := if p = .interactive then ic + 1 else ic
    match resolveProvider w pe m domain p with
    | .error _ => managerGetGo w pe domain rest m kc1 ic1
    | .ok none => managerGetGo w pe domain rest m kc1 ic1
    | .ok (some c) =>
      let m1 := if p = .memory then m else memStore m domain c
      ⟨some c, m1, kc1, ic1⟩

/-- `CredentialManager.get_credentials(domain)`. -/
def managerGet (w : World) (pe : PromptEnv) (darwin : Bool) (m : MemState)
    (domain : String) : GetResult :=
  managerGetGo w pe domain (managerProviders darwin) m 0 0

/-- One provider's `store_credentials(domain, username, password)` as seen by
the manager: the result flag and the memory state afterwards.  None of the
source's providers can raise here. -/
def providerStore (w : World) (m : MemState) (domain username password : String) :
    Provider → Except Unit (Bool × MemState)
  | .keychain => .ok ((keychainStore w domain username password).1, m)
  | .memory => .ok (true, memStore m domain ⟨username, password⟩)
  | .interactive => .ok (interactiveStore, m)
  | .environment => .error ()

/-- The `for provider in self.providers[:-2]` loop of
`CredentialManager.store_credentials`, with its fallback: on the first
durable success, mirror into the memory provider and return `True`; if the
loop exhausts, store in the memory provider only and return its `True`. -/
def managerStoreGo (w : World) (domain username password : String) :
    List Provider → MemState → Except Unit (Bool × MemState)
  | [], m => .ok (true, memStore m domain ⟨username, password⟩)
  | p :: rest, m =>
    match providerStore w m domain username password p with
    | .error _ => managerStoreGo w domain username password rest m
    | .ok (b, m1) =>
      if b then .ok (true, memStore m1 domain ⟨username, password⟩)
      else managerStoreGo w domain username password rest m1

/-- `CredentialManager.store_credentials(domain, username, password)`. -/
def managerStore (w : World) (darwin : Bool) (m : MemState)
    (domain username password : String) : Except Unit (Bool × MemState) :=
  managerStoreGo w domain username password (durableProviders darwin) m

/-- One provider's `test_credentials_available(domain)` as invoked by the
manager. -/
def providerTest (w : World) (m : MemState) (domain : String) :
    Provider → Except Unit Bool
  | .keychain => .ok (keychainTest w domain)
  | .memory => .ok (memTest m domain)
  | .interactive => .ok interactiveTest
  | .environment => .error ()

/-- The loop of `CredentialManager.test_credentials_available`: first
provider whose probe is truthy wins; raised probes are skipped; `False`
when the chain exhausts. -/
def managerTestGo (w : World) (m : MemState) (domain : String) :
    List Provider → Bool
  | [] => false
  | p :: rest =>
    match providerTest w m domain p with
    | .error _ => managerTestGo w m domain rest
    | .ok true => true
    | .ok false => managerTestGo w m domain rest

/-- `CredentialManager.test_credentials_available(domain)`. -/
def managerTest (w : World) (darwin : Bool) (m : MemState)
    (domain : String) : Bool :=
  managerTestGo w m domain (managerProviders darwin)

/-- `CredentialManager.authenticate_domain(domain)`: prompt for a username
(strip, reject empty) and a password (reject empty), then call
`store_credentials`.  These prompts sit OUTSIDE any `try`, so both
cancellation and any other prompt exception propagate to the caller. -/
def managerAuthenticate (w : World) (ap : PromptEnv) (darwin : Bool)
    (m : MemState) (domain : String) : Except Unit (Bool × MemState) :=
  match ap.usernameInput with
  | .cancel => .error ()
  | .oserror => .error ()
  | .line s =>
    let username := pyStrip s
    if username = "" then .ok (false, m)
    else
      match ap.passwordInput with
      | .cancel => .error ()
      | .oserror => .error ()
      | .line p =>
        if p = "" then .ok (false, m)
        else managerStore w darwin m domain username p

/-! ## server.py guard -/

/-- The credential guard at the top of `execute_ssh` in `server.py`: the
"No credentials found" error is returned iff
`credential_manager.test_credentials_available(domain)` is falsy, with the
domain derived by `get_domain_from_hostname`. -/
def executeSshNoCredsBranch (w : World) (darwin : Bool) (m : MemState)
    (hostname : String) : Bool :=
  !(managerTest w darwin m (get_domain_from_hostname hostname))

/-! ## EnvironmentLookup (spec side only) -/

/-- Modelled from the spec: the domain upper-cased with `.` replaced by
`_`, the key material of the two variable names.  No EnvironmentLookup
provider exists anywhere in the source. -/
def envDomainKey (domain : String) : String :=
  String.mk (domain.toList.map (fun c => if c = '.' then '_' else c.toUpper))

/-- Modelled from the spec: the name of the username variable. -/
def envUserVar (domain : String) : String :=
  "SSH_USERNAME_" ++ envDomainKey domain

/-- Modelled from the spec: the name of the password variable. -/
def envPassVar (domain : String) : String :=
  "SSH_PASSWORD_" ++ envDomainKey domain

/-- Modelled from the spec: EnvironmentLookup resolution — read both
variables from the process environment `e`; both must be present and
non-empty, else `absent`.  No such provider exists in the source; this
definition only gives the spec's words a formal counterpart. -/
def envLookupSpec (e : String → Option String) (domain : String) : Option Cred :=
  match e (envUserVar domain), e (envPassVar domain) with
  | some u, some p => if u ≠ "" && p ≠ "" then some ⟨u, p⟩ else none
  | _, _ => none

/-! ## Concrete environments for witnesses and counterexamples -/

/-- A subprocess world in which every invocation succeeds with exit code 0
and stdout `"alice"`; the keychain then resolves `("alice", "alice")`. -/
def wYes : World := fun _ => .ok ⟨0, "alice"⟩

/-- A subprocess world in which every invocation exits with code 1; the
keychain then resolves nothing, and stores fail. -/
def wNo : World := fun _ => .ok ⟨1, ""⟩

/-- An operator who cancels every prompt. -/
def peQuiet : PromptEnv := ⟨.cancel, .cancel⟩

/-- An operator who answers `promptuser` / `promptpw`. -/
def pePrompt : PromptEnv := ⟨.line "promptuser", .line "promptpw"⟩

/-- A process environment holding non-empty values for the two variables the
spec's EnvironmentLookup would read for `example.com`. -/
def envExample : String → Option String := fun s =>
  if s = "SSH_USERNAME_EXAMPLE_COM" then some "envuser"
  else if s = "SSH_PASSWORD_EXAMPLE_COM" then some "envpw"
  else none

/-! ## Views used to state the chain semantics -/

/-- The manager's `try: ... except Exception: continue` view of one
resolution: a raised resolution is indistinguishable from `absent`. -/
def flattenExcept : Except Unit (Option Cred) → Option Cred
  | .error _ => none
  | .ok o => o

/-- The manager's suppressed view of one probe: a raised probe counts as
unavailable. -/
def flattenTest : Except Unit Bool → Bool
  | .error _ => false
  | .ok b => b

/-- First non-`none` element of a list of optional credentials. -/
def firstSome : List (Option Cred) → Option Cred
  | [] => none
  | some c :: _ => some c
  | none :: rest => firstSome rest

/-! ## Helper lemmas -/

theorem splitOnDot_ne_nil (cs : List Char) : splitOnDot cs ≠ [] := by
  induction cs with
  | nil => simp [splitOnDot]
  | cons c rest ih =>
    simp only [splitOnDot]
    by_cases h : c = '.'
    · simp [h]
    · simp only [h, if_false]
      cases hr : splitOnDot rest with
      | nil => simp
      | cons hd tl => simp

theorem splitOnDot_no_dot (cs : List Char) (h : '.' ∉ cs) :
    splitOnDot cs = [cs] := by
  induction cs with
  | nil => rfl
  | cons c rest ih =>
    have hc : c ≠ '.' := fun hc => h (hc ▸ List.mem_cons_self c rest)
    have hrest : '.' ∉ rest := fun hm => h (List.mem_cons_of_mem c hm)
    simp only [splitOnDot, hc, if_false, ih hrest]

theorem memGet_memStore_same (m : MemState) (domain : String) (c : Cred) :
    memGet (memStore m domain c) domain = some c := by
  simp [memGet, memStore, List.find?]

theorem memTest_eq_isSome (m : MemState) (domain : String) :
    memTest m domain = (memGet m domain).isSome := by
  induction m with
  | nil => rfl
  | cons kv rest ih =>
    cases h : kv.1 == domain with
    | true => simp [memTest, memGet, List.find?, h]
    | false => simpa [memTest, memGet, List.find?, h] using ih

theorem managerGetGo_result_eq (w : World) (pe : PromptEnv) (domain : String)
    (ps : List Provider) (m : MemState) (kc ic : Nat) :
    (managerGetGo w pe domain ps m kc ic).result
      = firstSome (ps.map (fun p => flattenExcept (resolveProvider w pe m domain p))) := by
  induction ps generalizing kc ic with
  | nil => rfl
  | cons p rest ih =>
    simp only [managerGetGo, List.map_cons]
    cases h : resolveProvider w pe m domain p with
    | error e => simp [h, flattenExcept, firstSome, ih]
    | ok o =>
      cases o with
      | none => simp [h, flattenExcept, firstSome, ih]
      | some c => simp [h, flattenExcept, firstSome]

theorem firstSome_eq_none_iff (xs : List (Option Cred)) :
    firstSome xs = none ↔ ∀ x ∈ xs, x = none := by
  induction xs with
  | nil => simp [firstSome]
  | cons x rest ih =>
    cases x with
    | none => simp [firstSome, ih]
    | some c => simp [firstSome]

theorem managerStoreGo_ok (w : World) (domain username password : String)
    (ps : List Provider) (m : MemState) :
    ∃ m1, managerStoreGo w domain username password ps m = .ok (true, m1)
      ∧ memGet m1 domain = some ⟨username, password⟩ := by
  induction ps generalizing m with
  | nil => exact ⟨_, rfl, memGet_memStore_same m domain _⟩
  | cons p rest ih =>
    simp only [managerStoreGo]
    cases h : providerStore w m domain username password p with
    | error e => exact ih m
    | ok bm =>
      obtain ⟨b, m1⟩ := bm
      cases b with
      | false => simpa using ih m1
      | true => exact ⟨_, by simp, memGet_memStore_same m1 domain _⟩

theorem managerTestGo_eq_any (w : World) (m : MemState) (domain : String)
    (ps : List Provider) :
    managerTestGo w m domain ps
      = ps.any (fun p => flattenTest (providerTest w m domain p)) := by
  induction ps with
  | nil => rfl
  | cons p rest ih =>
    simp only [managerTestGo, List.any_cons]
    cases h : providerTest w m domain p with
    | error e => simp [flattenTest, ih]
    | ok b => cases b <;> simp [flattenTest, ih]

theorem managerGetGo_interactive_error (w : World) (pe pe0 : PromptEnv)
    (domain : String) (h : (interactiveGet pe).result = .error ())
    (h0 : (interactiveGet pe0).result = .ok none) (ps : List Provider)
    (m : MemState) (kc ic : Nat) :
    managerGetGo w pe domain ps m kc ic = managerGetGo w pe0 domain ps m kc ic := by
  induction ps generalizing kc ic with
  | nil => rfl
  | cons p rest ih =>
    cases p with
    | keychain =>
      simp only [managerGetGo, resolveProvider]
      cases (keychainGet w domain).1 with
      | none => exact ih _ _
      | some c => rfl
    | memory =>
      simp only [managerGetGo, resolveProvider]
      cases memGet m domain with
      | none => exact ih _ _
      | some c => rfl
    | interactive =>
      simp only [managerGetGo, resolveProvider, h, h0]
      exact ih _ _
    | environment =>
      simp only [managerGetGo, resolveProvider]
      exact ih _ _

theorem keychainGet_trace (w : World) (domain : String) :
    (keychainGet w domain).2 = [⟨keychainReadCmd1 domain, some 30⟩]
    ∨ ∃ u, (keychainGet w domain).2
        = [⟨keychainReadCmd1 domain, some 30⟩,
           ⟨keychainReadCmd2 domain u, some 30⟩] := by
  simp only [keychainGet]
  cases hw1 : w (keychainReadCmd1 domain) with
  | raised => left; rfl
  | ok r1 =>
    by_cases h1 : r1.returncode ≠ 0
    · left; simp [h1]
    · right
      refine ⟨pyStrip r1.stdout, ?_⟩
      simp only [h1, ite_false]
      cases hw2 : w (keychainReadCmd2 domain (pyStrip r1.stdout)) with
      | raised => simp
      | ok r2 => by_cases h2 : r2.returncode ≠ 0 <;> simp [h2]

theorem keychainStore_trace (w : World) (domain username password : String) :
    (keychainStore w domain username password).2
      = [⟨keychainDeleteCmd domain, none⟩]
    ∨ (keychainStore w domain username password).2
      = [⟨keychainDeleteCmd domain, none⟩,
         ⟨keychainAddCmd domain username password, none⟩] := by
  simp only [keychainStore]
  cases hwD : w (keychainDeleteCmd domain) with
  | raised => left; rfl
  | ok rD =>
    right
    cases hwA : w (keychainAddCmd domain username password) with
    | raised => rfl
    | ok rA => rfl

/-! ## Claim theorems -/

/-- C3: `get_domain_from_hostname` agrees everywhere with the spec's
algorithm (split on `'.'`; with at least two labels, join the last two;
otherwise the hostname unchanged), and maps `"foo.bar.example.com"` to
`"example.com"`, `"localhost"` to `"localhost"` and `"a.b"` to `"a.b"`.
Being a Lean function, it is pure and deterministic with no failure
state. -/
theorem C3_domain_resolver :
    (∀ cs : List Char, domainFromHostnameChars cs = domainFromHostnameSpec cs)
    ∧ get_domain_from_hostname "foo.bar.example.com" = "example.com"
    ∧ get_domain_from_hostname "localhost" = "localhost"
    ∧ get_domain_from_hostname "a.b" = "a.b" := by
  refine ⟨fun cs => ?_, by decide, by decide, by decide⟩
  by_cases h : '.' ∈ cs
  · simp [domainFromHostnameChars, domainFromHostnameSpec, h]
  · simp [domainFromHostnameChars, domainFromHostnameSpec, h,
      splitOnDot_no_dot cs h]

/-- C1: `get_credentials` scans the providers in construction order, sees a
raised provider as `absent` and continues, returns the first non-absent
resolution, and returns `absent` exactly when every provider's
(failure-suppressed) resolution is `absent`. -/
theorem C1_get_credentials_first_success (w : World) (pe : PromptEnv)
    (darwin : Bool) (m : MemState) (domain : String) :
    (managerGet w pe darwin m domain).result
      = firstSome ((managerProviders darwin).map
          (fun p => flattenExcept (resolveProvider w pe m domain p)))
    ∧ ((managerGet w pe darwin m domain).result = none ↔
        ∀ p ∈ managerProviders darwin,
          flattenExcept (resolveProvider w pe m domain p) = none) := by
  have h := managerGetGo_result_eq w pe domain (managerProviders darwin) m 0 0
  refine ⟨h, ?_⟩
  rw [show (managerGet w pe darwin m domain).result = _ from h,
    firstSome_eq_none_iff]
  simp

/-- C10: `test_credentials_available` is true for every domain, world and
cache state, because the interactive provider closes the chain and its probe
is constantly true; hence the "No credentials found" branch of
`execute_ssh` is never taken. -/
theorem C10_no_creds_branch_unreachable (w : World) (darwin : Bool)
    (m : MemState) (hostname : String) :
    (managerProviders darwin).getLast? = some Provider.interactive
    ∧ managerTest w darwin m (get_domain_from_hostname hostname) = true
    ∧ executeSshNoCredsBranch w darwin m hostname = false := by
  have hlast : (managerProviders darwin).getLast? = some Provider.interactive := by
    cases darwin <;> rfl
  have htest : ∀ d, managerTest w darwin m d = true := by
    intro d
    rw [managerTest, managerTestGo_eq_any]
    cases darwin <;>
      simp [managerProviders, providerTest, flattenTest, interactiveTest]
  exact ⟨hlast, htest _, by
    simp [executeSshNoCredsBranch, htest]⟩

/-- C4: `store_credentials` iterates only the durable slice of the chain —
which contains neither the memory provider nor the interactive provider —
always reports `true`, and always leaves the credential retrievable from the
session cache; when the (sole) durable provider accepts the store, the
manager mirrors the pair into the cache and returns at once, and with no
durable provider it stores in the cache alone. -/
theorem C4_store_credentials (w : World) (darwin : Bool) (m : MemState)
    (domain username password : String) :
    Provider.memory ∉ durableProviders darwin
    ∧ Provider.interactive ∉ durableProviders darwin
    ∧ (∃ m1, managerStore w darwin m domain username password = .ok (true, m1)
        ∧ memGet m1 domain = some ⟨username, password⟩)
    ∧ ((keychainStore w domain username password).1 = true →
        managerStore w true m domain username password
          = .ok (true, memStore m domain ⟨username, password⟩))
    ∧ managerStore w false m domain username password
        = .ok (true, memStore m domain ⟨username, password⟩) := by
  refine ⟨?_, ?_, managerStoreGo_ok w domain username password _ m, fun h => ?_, rfl⟩
  · cases darwin <;> decide
  · cases darwin <;> decide
  · simp [managerStore, durableProviders, managerProviders, managerStoreGo,
      providerStore, h]

/-- C4 witness: with every subprocess failing and no durable provider
(`darwin = false`), storing still succeeds and the pair is retrievable. -/
theorem C4_store_credentials_witness :
    Provider.memory ∉ durableProviders false
    ∧ Provider.interactive ∉ durableProviders false
    ∧ (∃ m1, managerStore wNo false [] "d.example" "u" "p" = .ok (true, m1)
        ∧ memGet m1 "d.example" = some ⟨"u", "p"⟩)
    ∧ ((keychainStore wNo "d.example" "u" "p").1 = true →
        managerStore wNo true [] "d.example" "u" "p"
          = .ok (true, memStore [] "d.example" ⟨"u", "p"⟩))
    ∧ managerStore wNo false [] "d.example" "u" "p"
        = .ok (true, memStore [] "d.example" ⟨"u", "p"⟩) :=
  C4_store_credentials wNo false [] "d.example" "u" "p"

/-- C7: each provider's probe is true exactly when its resolve would return
a credential — definitionally for the keychain, provably for the cache —
except the interactive provider, whose probe is constantly true; and the
manager's `test_credentials_available` is true exactly when some provider's
failure-suppressed probe is true. -/
theorem C7_probe_semantics (w : World) (m : MemState) (domain : String) :
    keychainTest w domain = (keychainGet w domain).1.isSome
    ∧ memTest m domain = (memGet m domain).isSome
    ∧ interactiveTest = true
    ∧ (∀ ps : List Provider, managerTestGo w m domain ps
        = ps.any (fun p => flattenTest (providerTest w m domain p)))
    ∧ (∀ darwin : Bool, managerTest w darwin m domain = true ↔
        ∃ p ∈ managerProviders darwin,
          flattenTest (providerTest w m domain p) = true) := by
  refine ⟨rfl, memTest_eq_isSome m domain, rfl, managerTestGo_eq_any w m domain, ?_⟩
  intro darwin
  rw [managerTest, managerTestGo_eq_any]
  simp [List.any_eq_true]

/-- C2 counterexample: when the operator interrupts the username prompt,
`authenticate_domain` propagates the interrupt instead of degrading to
`false` — its prompts sit outside any `try`, so the claim that no exception
ever escapes a public operation is false. -/
theorem C2_counterexample :
    managerAuthenticate wNo ⟨.cancel, .line "pw"⟩ true [] "example.com"
      = .error () := rfl

/-- C2 (amended): `store_credentials` always returns a result,
`get_credentials` absorbs even an uncaught provider exception (a raised
interactive resolution leaves it behaving as a cancelled one), but
`authenticate_domain` propagates an interrupt at its username prompt. -/
theorem C2_error_containment :
    (∀ (w : World) (darwin : Bool) (m : MemState) (domain username password : String),
      ∃ r, managerStore w darwin m domain username password = .ok r)
    ∧ (∀ (w : World) (pe : PromptEnv) (darwin : Bool) (m : MemState) (domain : String),
        (interactiveGet pe).result = .error () →
          managerGet w pe darwin m domain = managerGet w peQuiet darwin m domain)
    ∧ (∀ (w : World) (ap : PromptEnv) (darwin : Bool) (m : MemState) (domain : String),
        ap.usernameInput = PromptResult.cancel →
          managerAuthenticate w ap darwin m domain = .error ()) := by
  refine ⟨fun w darwin m d u p => ?_, fun w pe darwin m d h => ?_,
    fun w ap darwin m d h => ?_⟩
  · obtain ⟨m1, hm, _⟩ := managerStoreGo_ok w d u p (durableProviders darwin) m
    exact ⟨_, hm⟩
  · exact managerGetGo_interactive_error w pe peQuiet d h rfl _ m 0 0
  · simp [managerAuthenticate, h]

/-- C2 witness: the amended containment at concrete inputs — a raised
interactive resolution leaves `get_credentials` unchanged, and a cancelled
username prompt makes `authenticate_domain` raise. -/
theorem C2_error_containment_witness :
    ((interactiveGet ⟨.oserror, .cancel⟩).result = .error ()
      ∧ managerGet wNo ⟨.oserror, .cancel⟩ true [] "h.example"
          = managerGet wNo peQuiet true [] "h.example")
    ∧ (PromptEnv.usernameInput ⟨.cancel, .cancel⟩ = PromptResult.cancel
      ∧ managerAuthenticate wYes ⟨.cancel, .cancel⟩ false [] "w.example"
          = .error ()) :=
  ⟨⟨rfl, C2_error_containment.2.1 wNo ⟨.oserror, .cancel⟩ true [] "h.example" rfl⟩,
   ⟨rfl, C2_error_containment.2.2 wYes ⟨.cancel, .cancel⟩ false [] "w.example" rfl⟩⟩

/-- C6 counterexample: a secret consisting of one blank is empty after
trimming, yet the provider returns it inside a credential — the source
tests the raw secret (`if not password:`), never trimming it, so the claim
that an all-blank secret yields `absent` is false. -/
theorem C6_counterexample :
    pyStrip " " = ""
    ∧ (interactiveGet ⟨.line "bob", .line " "⟩).result
        = .ok (some ⟨"bob", " "⟩) := ⟨rfl, rfl⟩

/-- C6 (amended): an empty-after-trimming username yields `absent` without
reaching the password prompt; a cancelled username prompt likewise; an
EMPTY (untrimmed) secret yields `absent` after the password prompt ran; and
a cancelled password prompt is caught and yields `absent`. -/
theorem C6_interactive_prompt :
    (∀ (s : String) (pw : PromptResult), pyStrip s = "" →
        interactiveGet ⟨.line s, pw⟩ = ⟨.ok none, false⟩)
    ∧ (∀ pw : PromptResult, interactiveGet ⟨.cancel, pw⟩ = ⟨.ok none, false⟩)
    ∧ (∀ s : String, pyStrip s ≠ "" →
        interactiveGet ⟨.line s, .line ""⟩ = ⟨.ok none, true⟩)
    ∧ (∀ s : String, pyStrip s ≠ "" →
        interactiveGet ⟨.line s, .cancel⟩ = ⟨.ok none, true⟩) := by
  refine ⟨fun s pw h => ?_, fun pw => rfl, fun s h => ?_, fun s h => ?_⟩
  all_goals simp [interactiveGet, h]

/-- C6 witness: the amended behaviour at concrete prompt inputs. -/
theorem C6_interactive_prompt_witness :
    (pyStrip "  " = ""
      ∧ interactiveGet ⟨.line "  ", .line "x"⟩ = ⟨.ok none, false⟩)
    ∧ (pyStrip "bob" ≠ ""
      ∧ interactiveGet ⟨.line "bob", .line ""⟩ = ⟨.ok none, true⟩) :=
  ⟨⟨rfl, C6_interactive_prompt.1 "  " (.line "x") rfl⟩,
   ⟨by decide, C6_interactive_prompt.2.2.1 "bob" (by decide)⟩⟩

/-- C5 counterexample: the chain built by `CredentialManager.__init__`
contains no EnvironmentLookup provider on either platform; concretely, with
the durable provider returning absent, the cache empty, and the environment
variables for `example.com` set and the spec's lookup resolving them,
`get_credentials` instead invokes the interactive prompt and returns its
values. -/
theorem C5_counterexample :
    Provider.environment ∉ managerProviders true
    ∧ Provider.environment ∉ managerProviders false
    ∧ envLookupSpec envExample "example.com" = some ⟨"envuser", "envpw"⟩
    ∧ (managerGet wNo pePrompt true [] "example.com").result
        = some ⟨"promptuser", "promptpw"⟩
    ∧ (managerGet wNo pePrompt true [] "example.com").interactiveCalls = 1 := by
  decide

/-- C5 (amended): the provider chain never contains an EnvironmentLookup
variant, so when the durable provider and the cache both come up absent,
`get_credentials` resolves through the interactive prompt — environment
variables are never consulted. -/
theorem C5_no_environment_provider (darwin : Bool) (w : World)
    (pe : PromptEnv) (m : MemState) (domain : String)
    (hk : (keychainGet w domain).1 = none) (hm : memGet m domain = none) :
    Provider.environment ∉ managerProviders darwin
    ∧ (managerGet w pe darwin m domain).result
        = flattenExcept (interactiveGet pe).result := by
  constructor
  · cases darwin <;> decide
  · rcases h : (interactiveGet pe).result with e | o
    · cases darwin <;>
        simp [managerGet, managerGetGo, managerProviders, resolveProvider,
          hk, hm, h, flattenExcept]
    · cases o <;> cases darwin <;>
        simp [managerGet, managerGetGo, managerProviders, resolveProvider,
          hk, hm, h, flattenExcept]

/-- C5 witness: the amended fallback at concrete inputs. -/
theorem C5_no_environment_provider_witness :
    ((keychainGet wNo "w5.example").1 = none ∧ memGet [] "w5.example" = none)
    ∧ (Provider.environment ∉ managerProviders true
      ∧ (managerGet wNo pePrompt true [] "w5.example").result
          = flattenExcept (interactiveGet pePrompt).result) :=
  ⟨⟨by decide, rfl⟩,
   C5_no_environment_provider true wNo pePrompt [] "w5.example" (by decide) rfl⟩

/-- C8 counterexample: after a first successful durable resolution is
cached, a second `get_credentials` for the same domain still invokes the
keychain provider once — the durable provider precedes the cache in the
chain, so the second call is not served from the SessionCache. -/
theorem C8_counterexample :
    (managerGet wYes peQuiet true [] "example.net").result
        = some ⟨"alice", "alice"⟩
    ∧ (managerGet wYes peQuiet true
        (managerGet wYes peQuiet true [] "example.net").mem
        "example.net").result = some ⟨"alice", "alice"⟩
    ∧ (managerGet wYes peQuiet true
        (managerGet wYes peQuiet true [] "example.net").mem
        "example.net").keychainCalls = 1 := by
  decide

/-- C8 (amended): after one successful keychain resolution the SessionCache
contains the identical pair and a second `get_credentials` returns the
identical pair — but the keychain provider is invoked again by the second
call (it precedes the cache); the cache serves the pair precisely when the
keychain comes up absent. -/
theorem C8_cache_writeback (w w2 : World) (pe : PromptEnv) (m : MemState)
    (domain : String) (c : Cred) (h1 : (keychainGet w domain).1 = some c) :
    (managerGet w pe true m domain).result = some c
    ∧ memGet (managerGet w pe true m domain).mem domain = some c
    ∧ (managerGet w pe true m domain).keychainCalls = 1
    ∧ (managerGet w pe true (managerGet w pe true m domain).mem domain).result
        = some c
    ∧ (managerGet w pe true (managerGet w pe true m domain).mem domain).keychainCalls
        = 1
    ∧ ((keychainGet w2 domain).1 = none →
        (managerGet w2 pe true (managerGet w pe true m domain).mem domain).result
          = some c) := by
  have key : managerGet w pe true m domain
      = ⟨some c, memStore m domain c, 1, 0⟩ := by
    simp [managerGet, managerGetGo, managerProviders, resolveProvider, h1]
  refine ⟨by rw [key], by rw [key]; exact memGet_memStore_same m domain c,
    by rw [key], ?_, ?_, ?_⟩
  · rw [key]
    simp [managerGet, managerGetGo, managerProviders, resolveProvider, h1]
  · rw [key]
    simp [managerGet, managerGetGo, managerProviders, resolveProvider, h1]
  · intro h2
    rw [key]
    simp [managerGet, managerGetGo, managerProviders, resolveProvider, h2,
      memGet_memStore_same]

/-- C8 witness: the amended caching behaviour at concrete worlds. -/
theorem C8_cache_writeback_witness :
    (keychainGet wYes "w8.example").1 = some ⟨"alice", "alice"⟩
    ∧ ((managerGet wYes peQuiet true [] "w8.example").result
          = some ⟨"alice", "alice"⟩
      ∧ memGet (managerGet wYes peQuiet true [] "w8.example").mem "w8.example"
          = some ⟨"alice", "alice"⟩
      ∧ (managerGet wYes peQuiet true [] "w8.example").keychainCalls = 1
      ∧ (managerGet wYes peQuiet true
          (managerGet wYes peQuiet true [] "w8.example").mem "w8.example").result
          = some ⟨"alice", "alice"⟩
      ∧ (managerGet wYes peQuiet true
          (managerGet wYes peQuiet true [] "w8.example").mem
          "w8.example").keychainCalls = 1
      ∧ ((keychainGet wNo "w8.example").1 = none →
          (managerGet wNo peQuiet true
            (managerGet wYes peQuiet true [] "w8.example").mem
            "w8.example").result = some ⟨"alice", "alice"⟩)) :=
  ⟨by decide,
   C8_cache_writeback wYes wNo peQuiet [] "w8.example" ⟨"alice", "alice"⟩
     (by decide)⟩

/-- C9 counterexample: the store path's two subprocess invocations — the
delete and the add — are both made with no timeout at all, refuting the
claim that every invocation on both paths carries a bounded timeout. -/
theorem C9_counterexample :
    (keychainStore wYes "example.org" "u" "p").2
      = [⟨keychainDeleteCmd "example.org", none⟩,
         ⟨keychainAddCmd "example.org" "u" "p", none⟩] := by
  decide

/-- C9 (amended): every read-path subprocess invocation carries timeout 30
while the store-path invocations carry none, and on either path any raised
subprocess call or non-zero exit degrades the result to absent / false —
equivalently, a non-absent read means both lookups completed with exit 0,
and a true store means the add step completed with exit 0. -/
theorem C9_subprocess_timeouts (w : World) (domain username password : String) :
    (∀ call ∈ (keychainGet w domain).2, call.timeout = some 30)
    ∧ (∀ call ∈ (keychainStore w domain username password).2,
        call.timeout = none)
    ∧ ((keychainGet w domain).1 ≠ none →
        ∃ r1 r2, w (keychainReadCmd1 domain) = .ok r1 ∧ r1.returncode = 0
          ∧ w (keychainReadCmd2 domain (pyStrip r1.stdout)) = .ok r2
          ∧ r2.returncode = 0)
    ∧ ((keychainStore w domain username password).1 = true →
        ∃ r, w (keychainAddCmd domain username password) = .ok r
          ∧ r.returncode = 0) := by
  refine ⟨?_, ?_, ?_, ?_⟩
  · intro call hc
    rcases keychainGet_trace w domain with h | ⟨u, h⟩ <;> rw [h] at hc <;>
      simp at hc
    · simp [hc]
    · rcases hc with hc | hc <;> simp [hc]
  · intro call hc
    rcases keychainStore_trace w domain username password with h | h <;>
      rw [h] at hc <;> simp at hc
    · simp [hc]
    · rcases hc with hc | hc <;> simp [hc]
  · intro hne
    simp only [keychainGet] at hne
    cases hw1 : w (keychainReadCmd1 domain) with
    | raised => rw [hw1] at hne; simp at hne
    | ok r1 =>
      rw [hw1] at hne
      by_cases h1 : r1.returncode ≠ 0
      · simp [h1] at hne
      · simp only [h1, if_neg, ite_false] at hne
        cases hw2 : w (keychainReadCmd2 domain (pyStrip r1.stdout)) with
        | raised => rw [hw2] at hne; simp at hne
        | ok r2 =>
          rw [hw2] at hne
          by_cases h2 : r2.returncode ≠ 0
          · simp [h2] at hne
          · push_neg at h1 h2
            exact ⟨r1, r2, rfl, h1, hw2, h2⟩
  · intro hok
    simp only [keychainStore] at hok
    cases hwD : w (keychainDeleteCmd domain) with
    | raised => rw [hwD] at hok; simp at hok
    | ok rD =>
      rw [hwD] at hok
      cases hwA : w (keychainAddCmd domain username password) with
      | raised => rw [hwA] at hok; simp at hok
      | ok rA =>
        rw [hwA] at hok
        simp at hok
        exact ⟨rA, rfl, hok⟩

/-- C9 witness: the amended timeout discipline and degradation at a world
where every call succeeds. -/
theorem C9_subprocess_timeouts_witness :
    ((keychainGet wYes "w9.example").1 ≠ none
      ∧ (keychainStore wYes "w9.example" "u" "p").1 = true)
    ∧ ((∀ call ∈ (keychainGet wYes "w9.example").2, call.timeout = some 30)
      ∧ (∃ r, wYes (keychainAddCmd "w9.example" "u" "p") = .ok r
          ∧ r.returncode = 0)) :=
  ⟨⟨by decide, by decide⟩,
   ⟨(C9_subprocess_timeouts wYes "w9.example" "u" "p").1,
    (C9_subprocess_timeouts wYes "w9.example" "u" "p").2.2.2 (by decide)⟩⟩

end SshMcp
